import Mathlib

/-!
# Verification of RocketPy's atmosphere and tank subsystems

Shallow embedding of the atmospheric-model subsystem (`rocketpy/Environment.py`)
and the propellant-tank fluid model (`rocketpy/motors/Tank.py`), together with
theorems settling the specification claims about them.

Profiles (the external `Function` collaborator) are modelled semantically as
real-valued functions of a real variable; its `integralFunction` operation is
modelled as the cumulative interval integral from time zero.
-/

open scoped BigOperators

namespace RocketPy

/-! ## Physical constants (Environment.__init__, lines 362-364) -/

/-- The `self.airGasConstant = 287.05287` (J/K/kg). -/
def airGasConstant : ℝ := 287.05287

/-- The `self.standard_g = 9.80665` (m/s²). -/
def standard_g : ℝ := 9.80665

/-- The `self.earthRadius = 6.3781e6` (m), the default before a latitude is set. -/
def defaultEarthRadius : ℝ := 6.3781e6

/-! ## Tank geometry and fluids (external collaborator contract, Tank.py) -/

/-- The tank-geometry collaborator: `volume(h)`, its inverse, `total_volume`
and the axial bounds `bottom`/`top`, as consumed by `Tank.py`. -/
structure TankGeometry where
  volume : ℝ → ℝ
  inverse_volume : ℝ → ℝ
  total_volume : ℝ
  bottom : ℝ
  top : ℝ

/-- A fluid property record: only the density is consumed by `Tank.py`. -/
structure Fluid where
  density : ℝ

/-! ## UllageBasedTank (Tank.py lines 345-390) -/

/-- The `UllageBasedTank`: the authoritative signal is the ullage (gas) volume
profile; `geometry`, `liquid` and `gas` are as in `Tank.__init__`. -/
structure UllageBasedTank where
  name : String
  geometry : TankGeometry
  liquid : Fluid
  gas : Fluid
  ullage : ℝ → ℝ

namespace UllageBasedTank

/-- The construction-time check of `UllageBasedTank.__init__`:
`(self.ullage > self.geometry.total_volume).any() or (self.ullage < 0).any()`
raises `ValueError("The ullage volume is out of bounds.")`.  A tank is valid
when the check passes, i.e. the ullage profile stays within
`[0, total_volume]`. -/
def valid (tk : UllageBasedTank) : Prop :=
  ∀ t : ℝ, 0 ≤ tk.ullage t ∧ tk.ullage t ≤ tk.geometry.total_volume

/-- The `liquidVolume = -(self.ullage - self.geometry.total_volume)` (line 370). -/
def liquidVolume (tk : UllageBasedTank) : ℝ → ℝ :=
  fun t => -(tk.ullage t - tk.geometry.total_volume)

/-- The `gasVolume = self.ullage` (line 374). -/
def gasVolume (tk : UllageBasedTank) : ℝ → ℝ :=
  fun t => tk.ullage t

/-- The `gasMass = self.gasVolume * self.gas.density` (line 378). -/
def gasMass (tk : UllageBasedTank) : ℝ → ℝ :=
  fun t => tk.gasVolume t * tk.gas.density

/-- The `liquidMass = self.liquidVolume * self.liquid.density` (line 382). -/
def liquidMass (tk : UllageBasedTank) : ℝ → ℝ :=
  fun t => tk.liquidVolume t * tk.liquid.density

end UllageBasedTank

/-! ## MassFlowRateBasedTank (Tank.py lines 245-342) -/

/-- The `MassFlowRateBasedTank`: authoritative signals are the four mass flow
rate profiles and the two initial masses. -/
structure MassFlowRateBasedTank where
  name : String
  geometry : TankGeometry
  liquid : Fluid
  gas : Fluid
  initial_liquid_mass : ℝ
  initial_gas_mass : ℝ
  liquid_mass_flow_rate_in : ℝ → ℝ
  gas_mass_flow_rate_in : ℝ → ℝ
  liquid_mass_flow_rate_out : ℝ → ℝ
  gas_mass_flow_rate_out : ℝ → ℝ

namespace MassFlowRateBasedTank

/-- The `netLiquidFlowRate = liquid_mass_flow_rate_in - liquid_mass_flow_rate_out`
(lines 312-314). -/
def netLiquidFlowRate (tk : MassFlowRateBasedTank) : ℝ → ℝ :=
  fun t => tk.liquid_mass_flow_rate_in t - tk.liquid_mass_flow_rate_out t

/-- The profile computed inside `liquidMass` (lines 296-299):
`liquidMass = initial_liquid_mass + netLiquidFlowRate.integralFunction()`;
the external `Function.integralFunction` is modelled as the cumulative
integral from time zero.  The method returns this profile only after the
underfill check `noUnderfill` below passes; otherwise it raises
(lines 300-301). -/
noncomputable def liquidMass (tk : MassFlowRateBasedTank) : ℝ → ℝ :=
  fun t => tk.initial_liquid_mass + ∫ s in (0:ℝ)..t, tk.netLiquidFlowRate s

/-- The evaluation-time underfill check of `liquidMass` (lines 300-301):
`if (liquidMass < 0).any(): raise ValueError(f"The tank ... is underfilled.")`.
The `.any()` ranges over the discretized profile's (nonnegative) time
samples, so the check passes exactly when the computed liquid-mass profile
is nonnegative at every time `t ≥ 0`; the method returns the profile only
then and raises the `ValueError` otherwise. -/
def noUnderfill (tk : MassFlowRateBasedTank) : Prop :=
  ∀ t : ℝ, 0 ≤ t → 0 ≤ tk.liquidMass t

end MassFlowRateBasedTank

/-! ## Theorems about the tank model -/

/-- A concrete instance of an ullage tank: constant ullage 1 m³ in a tank of
total volume 2 m³. -/
def ullageTankExample : UllageBasedTank where
  name := "example"
  geometry := { volume := id, inverse_volume := id, total_volume := 2,
                bottom := 0, top := 2 }
  liquid := { density := 1000 }
  gas := { density := 1 }
  ullage := fun _ => 1

/-- A concrete mass-flow-rate tank with constant inflow 2 kg/s, zero outflow
and 3 kg of initial liquid. -/
def massFlowTankExample : MassFlowRateBasedTank where
  name := "example"
  geometry := { volume := id, inverse_volume := id, total_volume := 10,
                bottom := 0, top := 10 }
  liquid := { density := 1000 }
  gas := { density := 1 }
  initial_liquid_mass := 3
  initial_gas_mass := 1
  liquid_mass_flow_rate_in := fun _ => 2
  gas_mass_flow_rate_in := fun _ => 0
  liquid_mass_flow_rate_out := fun _ => 0
  gas_mass_flow_rate_out := fun _ => 0

/-! ## Python stdlib `bisect.bisect` (binary search, used at Environment.py
line 2931 and in grid index location) -/

/-- The loop of CPython's `bisect.bisect_right`: while `lo < hi`, take
`mid = (lo + hi) // 2`; if `x < a[mid]` set `hi = mid` else `lo = mid + 1`;
finally return `lo`. -/
noncomputable def bisectRightAux (l : List ℝ) (x : ℝ) (lo hi : ℕ) : ℕ :=
  if _h : lo < hi then
    let mid := (lo + hi) / 2
    if x < l.getD mid 0 then bisectRightAux l x lo mid
    else bisectRightAux l x (mid + 1) hi
  else lo
termination_by hi - lo
decreasing_by
  · have : lo ≤ (lo + hi) / 2 := by omega
    omega
  · omega

/-- The `bisect.bisect(l, x)`: insertion point of `x` in `l`, to the right of
existing entries equal to `x`. -/
noncomputable def bisectRight (l : List ℝ) (x : ℝ) : ℕ :=
  bisectRightAux l x 0 l.length

/-! ## International Standard Atmosphere
(Environment.loadInternationalStandardAtmosphere, lines 2844-2956) -/

/-- ISA layer base geopotential heights (m), line 2858. -/
def isaGeopotentialHeight : List ℝ :=
  [-2e3, 0, 11e3, 20e3, 32e3, 47e3, 51e3, 71e3, 80e3]

/-- ISA layer base temperatures (K), line 2869. -/
def isaTemperature : List ℝ :=
  [301.15, 288.15, 216.65, 216.65, 228.65, 270.65, 270.65, 214.65, 196.65]

/-- ISA layer temperature gradients β (K/m), line 2880. -/
def isaBeta : List ℝ :=
  [-6.5e-3, -6.5e-3, 0, 1e-3, 2.8e-3, 0, -2.8e-3, -2e-3, 0]

/-- ISA layer base pressures (Pa), line 2891. -/
def isaPressure : List ℝ :=
  [1.27774e5, 1.01325e5, 2.26320e4, 5.47487e3, 8.680164e2, 1.10906e2,
   6.69384e1, 3.95639e0, 8.86272e-2]

/-- The closed-form standard-atmosphere pressure at geometric height `h`
(`pressure_function`, Environment.py lines 2920-2947): convert to
geopotential height, clamp outside [-2000, 80000], binary-search the layer,
then apply the barometric formula of that layer. `ER` is the configured
Earth radius. -/
noncomputable def pressure_function (ER : ℝ) (h : ℝ) : ℝ :=
  let H := ER * h / (ER + h)
  if H < -2000 then isaPressure.getD 0 0
  else if H > 80000 then (isaPressure.getLast?).getD 0
  else
    let layer := bisectRight isaGeopotentialHeight H - 1
    let Hb := isaGeopotentialHeight.getD layer 0
    let Tb := isaTemperature.getD layer 0
    let Pb := isaPressure.getD layer 0
    let B := isaBeta.getD layer 0
    if B ≠ 0 then
      Pb * (1 + (B / Tb) * (H - Hb)) ^ (-standard_g / (B * airGasConstant))
    else
      let T := Tb + B * (H - Hb)
      Pb * Real.exp (-(H - Hb) * (standard_g / (airGasConstant * T)))

/-- The per-layer pressure formula as worded by the claim: with
`(Hb, Tb, Pb, beta)` the base values of layer `i`, return
`Pb * (1 + (beta/Tb)*(H-Hb))^(-g/(beta*R_air))` when `beta ≠ 0` and
`Pb * exp(-(H-Hb)*g/(R_air*Tb))` when `beta = 0`. -/
noncomputable def isaLayerPressureSpec (i : ℕ) (H : ℝ) : ℝ :=
  let Hb := isaGeopotentialHeight.getD i 0
  let Tb := isaTemperature.getD i 0
  let Pb := isaPressure.getD i 0
  let beta := isaBeta.getD i 0
  if beta ≠ 0 then
    Pb * (1 + (beta / Tb) * (H - Hb)) ^ (-standard_g / (beta * airGasConstant))
  else
    Pb * Real.exp (-(H - Hb) * standard_g / (airGasConstant * Tb))

/-! ## The external `Function` collaborator and numpy primitives -/

/-- The external `Function` collaborator applied to a discrete sample set
with `interpolation="linear"`, modelled as piecewise-linear interpolation of
the sample points with constant extrapolation. -/
noncomputable def linearInterp : List (ℝ × ℝ) → ℝ → ℝ
  | [], _ => 0
  | [p], _ => p.2
  | p :: q :: rest, x =>
    if x ≤ p.1 then p.2
    else if x ≤ q.1 then p.2 + (q.2 - p.2) * (x - p.1) / (q.1 - p.1)
    else linearInterp (q :: rest) x

/-- Python's float modulo `x % m` (result has the sign of `m`):
`x - m * floor(x / m)`. -/
noncomputable def pymod (x m : ℝ) : ℝ := x - m * (⌊x / m⌋ : ℤ)

/-- The `numpy.arctan2(y, x)`: the angle of the point `(x, y)` in `(-π, π]`,
by the standard piecewise definition. -/
noncomputable def numpyArctan2 (y x : ℝ) : ℝ :=
  if 0 < x then Real.arctan (y / x)
  else if x < 0 ∧ 0 ≤ y then Real.arctan (y / x) + Real.pi
  else if x < 0 ∧ y < 0 then Real.arctan (y / x) - Real.pi
  else if x = 0 ∧ 0 < y then Real.pi / 2
  else if x = 0 ∧ y < 0 then -(Real.pi / 2)
  else 0

/-! ## The Environment's atmospheric state -/

/-- The profile set and ensemble raw data owned by an `Environment`
instance: the active profiles (all functions of height above sea level), the
maximum expected height, and the raw per-member ensemble arrays saved by
`processEnsemble` (`levelEnsemble` is shared by all members; the others are
indexed member-first).  Masked (missing) values of the numpy masked arrays
are modelled as `none`. -/
structure Environment where
  pressure : ℝ → ℝ
  temperature : ℝ → ℝ
  windVelocityX : ℝ → ℝ
  windVelocityY : ℝ → ℝ
  windSpeed : ℝ → ℝ
  windHeading : ℝ → ℝ
  windDirection : ℝ → ℝ
  density : ℝ → ℝ
  speedOfSound : ℝ → ℝ
  dynamicViscosity : ℝ → ℝ
  maxExpectedHeight : ℝ
  numEnsembleMembers : ℕ
  levelEnsemble : List (Option ℝ)
  heightEnsemble : List (List (Option ℝ))
  temperatureEnsemble : List (List (Option ℝ))
  windUEnsemble : List (List (Option ℝ))
  windVEnsemble : List (List (Option ℝ))
  windHeadingEnsemble : List (List (Option ℝ))
  windDirectionEnsemble : List (List (Option ℝ))
  windSpeedEnsemble : List (List (Option ℝ))
  ensembleMember : ℤ

/-- The `calculateDensityProfile` (lines 2958-2985): `D = P / (R * T)` from the
currently stored pressure and temperature profiles. -/
noncomputable def calculateDensityProfile (e : Environment) : Environment :=
  { e with density := fun h => e.pressure h / (airGasConstant * e.temperature h) }

/-- The `calculateSpeedOfSoundProfile` (lines 2987-3015):
`a = (1.4 * R * T) ** 0.5`. -/
noncomputable def calculateSpeedOfSoundProfile (e : Environment) : Environment :=
  { e with speedOfSound := fun h =>
      Real.sqrt (1.4 * airGasConstant * e.temperature h) }

/-- The `calculateDynamicViscosity` (lines 3017-3046):
`u = (1.458e-6 * T ** 1.5) / (T + 110.4)`. -/
noncomputable def calculateDynamicViscosity (e : Environment) : Environment :=
  { e with dynamicViscosity := fun h =>
      1.458e-6 * e.temperature h ^ (1.5:ℝ) / (e.temperature h + 110.4) }

/-- The `setAtmosphericModel` (lines 984-1304): dispatch to the ingestion branch
matching the requested model type — abstracted here as an arbitrary update
`process` of the environment, covering every branch of the source dispatch —
then unconditionally recompute density, speed of sound and dynamic viscosity
(lines 1295-1302). -/
noncomputable def setAtmosphericModel (process : Environment → Environment)
    (e : Environment) : Environment :=
  calculateDynamicViscosity (calculateSpeedOfSoundProfile
    (calculateDensityProfile (process e)))

/-- The `addWindGust` (lines 3048-3093): add the gust profiles to the stored
wind components, then rebuild `windHeading` and `windSpeed` from the new
components.  No other profile is touched. -/
noncomputable def addWindGust (e : Environment) (windGustX windGustY : ℝ → ℝ) :
    Environment :=
  let wX := fun h => e.windVelocityX h + windGustX h
  let wY := fun h => e.windVelocityY h + windGustY h
  { e with
    windVelocityX := wX
    windVelocityY := wY
    windHeading := fun h =>
      pymod ((180 / Real.pi) * numpyArctan2 (wX h) (wY h)) 360
    windSpeed := fun h => Real.sqrt (wX h ^ 2 + wY h ^ 2) }

/-- Errors raised by `selectEnsembleMember`: the explicit bounds check
(`ValueError("Please choose member from {lo} to {hi}")`, lines 2745-2750)
and the `IndexError` numpy itself raises on an out-of-range axis index. -/
inductive EnvError where
  | valueError (lo hi : ℤ)
  | indexError
deriving DecidableEq

/-- Numpy indexing semantics on an axis of size `n`: indices in `[0, n)` are
used as-is, indices in `[-n, 0)` count from the end, anything else raises an
`IndexError` (`none`). -/
def numpyIndex (n : ℕ) (i : ℤ) : Option ℕ :=
  if 0 ≤ i then (if i < (n:ℤ) then some i.toNat else none)
  else (if -(n:ℤ) ≤ i then some (i + n).toNat else none)

/-- Whether a row of the combined data matrix contains a masked value. -/
def rowMasked (r : List (Option ℝ)) : Bool := r.any (fun o => o.isNone)

/-- The body of `selectEnsembleMember` (lines 2752-2842) once the member
index passed the bounds check and numpy resolved it to the physical axis
index `m`: slice the raw ensemble arrays at `m`, combine them into the
per-level data matrix, drop rows with masked content, rebuild the seven
profile functions from the matrix columns, update `maxExpectedHeight`,
store the member index, and recompute the derived density /
speed-of-sound / viscosity profiles. -/
noncomputable def selectEnsembleMemberBody (e : Environment) (m : ℕ)
    (member : ℤ) : Environment :=
  let levels := e.levelEnsemble
  let height := e.heightEnsemble.getD m []
  let temperature := e.temperatureEnsemble.getD m []
  let windU := e.windUEnsemble.getD m []
  let windV := e.windVEnsemble.getD m []
  let windHeading := e.windHeadingEnsemble.getD m []
  let windDirection := e.windDirectionEnsemble.getD m []
  let windSpeed := e.windSpeedEnsemble.getD m []
  let data_array := (List.range levels.length).map (fun i =>
    [levels.getD i none, height.getD i none, temperature.getD i none,
     windU.getD i none, windV.getD i none, windHeading.getD i none,
     windDirection.getD i none, windSpeed.getD i none])
  let data_array := if data_array.any rowMasked then
      data_array.filter (fun r => !(rowMasked r))
    else data_array
  let vals := data_array.map (fun r => r.map (fun o => o.getD 0))
  let col := fun (j : ℕ) => vals.map (fun r => (r.getD 1 0, r.getD j 0))
  let e₁ : Environment :=
    { e with
      pressure := linearInterp (col 0)
      temperature := linearInterp (col 2)
      windDirection := linearInterp (col 6)
      windHeading := linearInterp (col 5)
      windSpeed := linearInterp (col 7)
      windVelocityX := linearInterp (col 3)
      windVelocityY := linearInterp (col 4)
      maxExpectedHeight :=
        max ((height.getD 0 none).getD 0) (((height.getLast?).getD none).getD 0)
      ensembleMember := member }
  calculateDynamicViscosity (calculateSpeedOfSoundProfile
    (calculateDensityProfile e₁))

/-- The `selectEnsembleMember` (lines 2730-2842): the explicit bounds check of
lines 2744-2750 (`if member >= self.numEnsembleMembers: raise ValueError`),
then the array slicing and profile reconstruction of
`selectEnsembleMemberBody`, with numpy's own index resolution for the
member axis. -/
noncomputable def selectEnsembleMember (e : Environment) (member : ℤ) :
    Except EnvError Environment :=
  if member ≥ (e.numEnsembleMembers : ℤ) then
    Except.error (EnvError.valueError 0 ((e.numEnsembleMembers : ℤ) - 1))
  else
    match numpyIndex e.numEnsembleMembers member with
    | none => Except.error EnvError.indexError
    | some m => Except.ok (selectEnsembleMemberBody e m member)

/-- The raw ensemble dataset of an environment: member count and the stored
per-member arrays. -/
def ensembleRaw (e : Environment) :=
  (e.numEnsembleMembers, e.levelEnsemble, e.heightEnsemble,
   e.temperatureEnsemble, e.windUEnsemble, e.windVEnsemble,
   e.windHeadingEnsemble, e.windDirectionEnsemble, e.windSpeedEnsemble)

/-- The derived-profile invariant of the claim: density, speed of sound and
dynamic viscosity are the algebraic images of the currently active pressure
and temperature profiles. -/
def derivedProfilesConsistent (e : Environment) : Prop :=
  ∀ h : ℝ,
    e.density h = e.pressure h / (airGasConstant * e.temperature h) ∧
    e.speedOfSound h = Real.sqrt (1.4 * airGasConstant * e.temperature h) ∧
    e.dynamicViscosity h =
      1.458e-6 * e.temperature h ^ (1.5:ℝ) / (e.temperature h + 110.4)

/-- A concrete environment with a two-member ensemble dataset. -/
noncomputable def exampleEnsembleEnv : Environment where
  pressure := fun _ => 101325
  temperature := fun _ => 288.15
  windVelocityX := fun _ => 0
  windVelocityY := fun _ => 1
  windSpeed := fun _ => 1
  windHeading := fun _ => 0
  windDirection := fun _ => 180
  density := fun _ => 1.225
  speedOfSound := fun _ => 340
  dynamicViscosity := fun _ => 1.8e-5
  maxExpectedHeight := 80000
  numEnsembleMembers := 2
  levelEnsemble := [some 100000, some 90000]
  heightEnsemble := [[some 0, some 1000], [some 10, some 1100]]
  temperatureEnsemble := [[some 288, some 280], [some 289, some 281]]
  windUEnsemble := [[some 1, some 2], [some 3, some 4]]
  windVEnsemble := [[some 0, some 1], [some 0, some 2]]
  windHeadingEnsemble := [[some 90, some 60], [some 80, some 70]]
  windDirectionEnsemble := [[some 270, some 240], [some 260, some 250]]
  windSpeedEnsemble := [[some 1, some 2.2], [some 3, some 4.5]]
  ensembleMember := 0

/-- A concrete environment whose stored wind direction and heading are
consistent (`windDirection = (windHeading - 180) mod 360`) before a gust. -/
noncomputable def windGustExampleEnv : Environment :=
  { exampleEnsembleEnv with
    windVelocityX := fun _ => 0
    windVelocityY := fun _ => 1
    windHeading := fun _ => 0
    windDirection := fun _ => 180 }

/-! ## Named-feed retry loop of `setAtmosphericModel`
(GFS/FV3/NAM lines 1014-1104, RAP lines 1119-1139, GEFS/CMC 1195-1251) -/

/-- The cumulative number of cadence units subtracted from the entry time
up to and including loop iteration `j`, when the loop is entered with
`attemptCount = count`: iteration `j` subtracts `count + j` units, so
`cumOffset count j = count + (count+1) + ... + (count+j)`. -/
def cumOffset (count : ℕ) : ℕ → ℕ
  | 0 => count
  | j + 1 => cumOffset count j + (count + j + 1)

/-- The retry loop of a named forecast/ensemble feed:
`while not success and attemptCount < 10:` subtract
`cadence * attemptCount` hours from `timeAttempt`, format the source URL
from the nominal publication timestamp (the attempt time floored to the
publication cadence), try to ingest, and on failure increment
`attemptCount`.  Times are hours; `avail` is the ingestion outcome at a
nominal timestamp; the structural fuel `10 - attemptCount` encodes the
loop bound; `fileT` carries the last formatted URL timestamp.  Returns
`(success, last attempted nominal timestamp, attempted nominal
timestamps in order)`. -/
def forecastRetryAux (avail : ℤ → Bool) (cadence : ℤ) :
    ℕ → ℤ → ℤ → ℕ → Bool × ℤ × List ℤ
  | _count, _t, fileT, 0 => (false, fileT, [])
  | count, t, _fileT, fuel + 1 =>
    let t' := t - cadence * count
    let nominal := cadence * Int.fdiv t' cadence
    if avail nominal then (true, nominal, [nominal])
    else
      let r := forecastRetryAux avail cadence (count + 1) t' nominal fuel
      (r.1, r.2.1, nominal :: r.2.2)

/-- The full retry loop: entered with `attemptCount = 0`,
`timeAttempt = t0` (the current run time) and an attempt budget of 10. -/
def forecastRetry (avail : ℤ → Bool) (cadence t0 : ℤ) : Bool × ℤ × List ℤ :=
  forecastRetryAux avail cadence 0 t0 0 10

/-- The behaviour of the retry loop entered with `attemptCount = count` at
time `t`: at most `fuel` attempts are made; the `j`-th attempt (0-based)
targets the nominal publication timestamp of the entry time minus
`cadence * cumOffset count j` hours; every attempt before the last failed;
on success the loop stopped at its last (successful) attempt; on failure
the budget was exhausted and the reported source timestamp is the last
attempted one. -/
def RetrySpec (avail : ℤ → Bool) (c t : ℤ) (count fuel : ℕ)
    (r : Bool × ℤ × List ℤ) : Prop :=
  r.2.2.length ≤ fuel ∧
  (∀ (j : ℕ) (hj : j < r.2.2.length),
    r.2.2.get ⟨j, hj⟩ = c * Int.fdiv (t - c * (cumOffset count j : ℤ)) c) ∧
  (∀ (j : ℕ) (hj : j < r.2.2.length), j + 1 < r.2.2.length →
    avail (r.2.2.get ⟨j, hj⟩) = false) ∧
  (r.1 = true → r.2.2.getLast? = some r.2.1 ∧ avail r.2.1 = true) ∧
  (r.1 = false → r.2.2.length = fuel ∧
    (∀ (j : ℕ) (hj : j < r.2.2.length), avail (r.2.2.get ⟨j, hj⟩) = false) ∧
    (fuel ≠ 0 → r.2.2.getLast? = some r.2.1))

/-! ## Longitude normalization in gridded-source ingestion
(Environment.processForecastReanalysis, lines 2077-2086) -/

/-- The query-longitude normalization: if the grid's first or last
longitude is negative, keep the query when it is below 180 and otherwise
map it via `-180 + longitude % 180`; else map it via `longitude % 360`. -/
noncomputable def normalizeLongitude (lonArray : List ℝ) (longitude : ℝ) : ℝ :=
  if lonArray.getD 0 0 < 0 ∨ lonArray.getLast?.getD 0 < 0 then
    if longitude < 180 then longitude else -180 + pymod longitude 180
  else pymod longitude 360

/-- Claim C3: For an `UllageBasedTank` constructed with any valid ullage
profile, `liquidVolume(t) + gasVolume(t) = geometry.total_volume` for every
time `t`, and `liquidMass(t) = liquidVolume(t) * liquidDensity`. -/
theorem ullage_tank_volume_conservation (tk : UllageBasedTank) (hv : tk.valid)
    (t : ℝ) :
    tk.liquidVolume t + tk.gasVolume t = tk.geometry.total_volume ∧
    tk.liquidMass t = tk.liquidVolume t * tk.liquid.density := by
  refine ⟨?_, rfl⟩
  have _ := hv t
  simp [UllageBasedTank.liquidVolume, UllageBasedTank.gasVolume]

/-- Witness for C3 at the concrete tank `ullageTankExample` and `t = 3`. -/
theorem ullage_tank_volume_conservation_witness :
    ullageTankExample.liquidVolume 3 + ullageTankExample.gasVolume 3 =
      ullageTankExample.geometry.total_volume ∧
    ullageTankExample.liquidMass 3 =
      ullageTankExample.liquidVolume 3 * ullageTankExample.liquid.density :=
  ullage_tank_volume_conservation ullageTankExample
    (fun _ => by norm_num [ullageTankExample, UllageBasedTank.valid]) 3

/-- Claim C4: For a `MassFlowRateBasedTank` with constant liquid inflow rate
`r`, zero liquid outflow, and initial liquid mass `M0` — whose computed
liquid-mass profile passes the underfill check, so that `liquidMass`
returns it instead of raising — `liquidMass(T) = M0 + r*T` exactly for
every `T ≥ 0`: the integral of the constant net flow is linear. -/
theorem massflow_tank_constant_inflow_linear (tk : MassFlowRateBasedTank)
    (r : ℝ) (hin : tk.liquid_mass_flow_rate_in = fun _ => r)
    (hout : tk.liquid_mass_flow_rate_out = fun _ => 0)
    (hfill : tk.noUnderfill)
    (T : ℝ) (hT : 0 ≤ T) :
    tk.liquidMass T = tk.initial_liquid_mass + r * T := by
  have _ := hT
  have _ := hfill
  have hnet : tk.netLiquidFlowRate = fun _ => r := by
    funext t
    simp [MassFlowRateBasedTank.netLiquidFlowRate, hin, hout]
  simp only [MassFlowRateBasedTank.liquidMass, hnet]
  rw [intervalIntegral.integral_const]
  simp [mul_comm]

/-- Witness for C4 at the concrete tank `massFlowTankExample` and `T = 5`:
its computed liquid-mass profile `3 + 2t` stays nonnegative on `t ≥ 0`, so
the underfill check passes, and the liquid mass at 5 s is `3 + 2 * 5`. -/
theorem massflow_tank_constant_inflow_linear_witness :
    massFlowTankExample.liquidMass 5 = 3 + 2 * 5 := by
  have hmass : ∀ t : ℝ, massFlowTankExample.liquidMass t = 3 + 2 * t := by
    intro t
    have hnet : massFlowTankExample.netLiquidFlowRate = fun _ => (2:ℝ) := by
      funext s
      simp [MassFlowRateBasedTank.netLiquidFlowRate, massFlowTankExample]
    simp only [MassFlowRateBasedTank.liquidMass, hnet,
      intervalIntegral.integral_const, smul_eq_mul]
    show (3:ℝ) + (t - 0) * 2 = 3 + 2 * t
    ring1
  have hfill : massFlowTankExample.noUnderfill := by
    intro t ht
    rw [hmass t]
    linarith
  exact massflow_tank_constant_inflow_linear massFlowTankExample 2 rfl rfl
    hfill 5 (by norm_num)

/-- Monotonicity of `List.getD` on a list sorted by `≤`. -/
theorem sorted_getD_mono {l : List ℝ} (hs : l.Sorted (· ≤ ·)) {i j : ℕ}
    (hij : i ≤ j) (hj : j < l.length) : l.getD i 0 ≤ l.getD j 0 := by
  rcases eq_or_lt_of_le hij with rfl | hlt
  · exact le_refl _
  · have hi : i < l.length := lt_trans hlt hj
    rw [l.getD_eq_getElem 0 hi, l.getD_eq_getElem 0 hj]
    exact List.pairwise_iff_getElem.mp hs i j hi hj hlt

/-- Correctness of the `bisect_right` loop on a sorted list: the returned
index `r` lies in `[lo, hi]`, every element strictly left of `r` is `≤ x`,
and every element at index `≥ r` is `> x` — given that the same already
holds outside the window `[lo, hi)`. -/
theorem bisectRightAux_spec (l : List ℝ) (hs : l.Sorted (· ≤ ·)) (x : ℝ) :
    ∀ n lo hi, hi - lo = n → lo ≤ hi → hi ≤ l.length →
    (∀ j, j < lo → l.getD j 0 ≤ x) →
    (∀ j, hi ≤ j → j < l.length → x < l.getD j 0) →
    lo ≤ bisectRightAux l x lo hi ∧ bisectRightAux l x lo hi ≤ hi ∧
    (∀ j, j < bisectRightAux l x lo hi → l.getD j 0 ≤ x) ∧
    (∀ j, bisectRightAux l x lo hi ≤ j → j < l.length → x < l.getD j 0) := by
  intro n
  induction n using Nat.strong_induction_on with
  | _ n ih =>
    intro lo hi hn hlohi hhi hleft hright
    rw [bisectRightAux]
    by_cases hlt : lo < hi
    · simp only [dif_pos hlt]
      set mid := (lo + hi) / 2 with hmid
      have hmid₁ : lo ≤ mid := by omega
      have hmid₂ : mid < hi := by omega
      have hmidlen : mid < l.length := lt_of_lt_of_le hmid₂ hhi
      by_cases hx : x < l.getD mid 0
      · simp only [if_pos hx]
        have hnewright : ∀ j, mid ≤ j → j < l.length → x < l.getD j 0 := by
          intro j hj hjlen
          exact lt_of_lt_of_le hx (sorted_getD_mono hs hj hjlen)
        obtain ⟨h₁, h₂, h₃, h₄⟩ := ih (mid - lo) (by omega) lo mid rfl
          (by omega) (le_of_lt hmidlen) hleft hnewright
        exact ⟨h₁, by omega, h₃, h₄⟩
      · simp only [if_neg hx]
        push_neg at hx
        have hnewleft : ∀ j, j < mid + 1 → l.getD j 0 ≤ x := by
          intro j hj
          rcases Nat.lt_or_ge j lo with hjlo | hjlo
          · exact hleft j hjlo
          · exact le_trans (sorted_getD_mono hs (by omega) hmidlen) hx
        obtain ⟨h₁, h₂, h₃, h₄⟩ := ih (hi - (mid + 1)) (by omega) (mid + 1) hi
          rfl (by omega) hhi hnewleft hright
        exact ⟨by omega, h₂, h₃, h₄⟩
    · simp only [dif_neg hlt]
      exact ⟨le_refl _, by omega, hleft, fun j hj => hright j (by omega)⟩

/-- On a sorted list, `bisect.bisect` returns `i + 1` whenever
`l[i] ≤ x < l[i+1]`. -/
theorem bisectRight_eq_succ (l : List ℝ) (hs : l.Sorted (· ≤ ·)) (x : ℝ)
    (i : ℕ) (hlen : i + 1 < l.length)
    (h₁ : l.getD i 0 ≤ x) (h₂ : x < l.getD (i + 1) 0) :
    bisectRight l x = i + 1 := by
  have h := bisectRightAux_spec l hs x l.length 0 l.length rfl (Nat.zero_le _)
    (le_refl _) (fun j hj => absurd hj (Nat.not_lt_zero j))
    (fun j hj hjlen => absurd (lt_of_le_of_lt hj hjlen) (lt_irrefl _))
  obtain ⟨-, -, hL, hR⟩ := h
  set r := bisectRightAux l x 0 l.length with hr
  rcases Nat.lt_trichotomy r (i + 1) with hlt | heq | hgt
  · exact absurd h₁ (not_le_of_lt (hR i (by omega) (by omega)))
  · exact heq
  · exact absurd (hL (i + 1) hgt) (not_le_of_lt h₂)

/-- On a sorted list with every element `≤ x`, `bisect.bisect` returns the
length of the list. -/
theorem bisectRight_eq_length (l : List ℝ) (hs : l.Sorted (· ≤ ·)) (x : ℝ)
    (h : ∀ j, j < l.length → l.getD j 0 ≤ x) :
    bisectRight l x = l.length := by
  have hspec := bisectRightAux_spec l hs x l.length 0 l.length rfl
    (Nat.zero_le _) (le_refl _) (fun j hj => absurd hj (Nat.not_lt_zero j))
    (fun j hj hjlen => absurd (lt_of_le_of_lt hj hjlen) (lt_irrefl _))
  obtain ⟨-, hle, -, hR⟩ := hspec
  rcases Nat.lt_or_ge (bisectRightAux l x 0 l.length) l.length with hlt | hge
  · exact absurd (h _ hlt) (not_le_of_lt (hR _ (le_refl _) hlt))
  · exact le_antisymm hle hge

theorem isaGeopotentialHeight_sorted : isaGeopotentialHeight.Sorted (· ≤ ·) := by
  norm_num [isaGeopotentialHeight, List.sorted_cons]

theorem isaGeopotentialHeight_length : isaGeopotentialHeight.length = 9 := rfl

/-- Claim C2: For every geometric height `h`, with geopotential height
`H = ER*h/(ER+h)`: below -2000 the base layer's tabulated pressure is
returned, above 80000 the top layer's; otherwise the barometric formula of
the layer containing `H` (located by binary search) is applied, exactly as
the claim words it. -/
theorem pressure_function_spec (ER h : ℝ) :
    (ER * h / (ER + h) < -2000 → pressure_function ER h = 1.27774e5) ∧
    (ER * h / (ER + h) > 80000 → pressure_function ER h = 8.86272e-2) ∧
    (∀ i : ℕ, i < 8 →
      isaGeopotentialHeight.getD i 0 ≤ ER * h / (ER + h) →
      ER * h / (ER + h) < isaGeopotentialHeight.getD (i + 1) 0 →
      pressure_function ER h = isaLayerPressureSpec i (ER * h / (ER + h))) ∧
    (ER * h / (ER + h) = 80000 →
      pressure_function ER h = isaLayerPressureSpec 8 (ER * h / (ER + h))) := by
  set H := ER * h / (ER + h) with hH
  refine ⟨?_, ?_, ?_, ?_⟩
  · intro hlow
    simp only [pressure_function, ← hH]
    rw [if_pos hlow]
    norm_num [isaPressure]
  · intro hhigh
    simp only [pressure_function, ← hH]
    rw [if_neg (by linarith), if_pos hhigh]
    norm_num [isaPressure, List.getLast?]
  · intro i hi8 hlow hhigh
    have hsort := isaGeopotentialHeight_sorted
    have hnotlow : ¬ H < -2000 := by
      have h0 : isaGeopotentialHeight.getD 0 0 ≤ isaGeopotentialHeight.getD i 0 :=
        sorted_getD_mono hsort (Nat.zero_le i)
          (by rw [isaGeopotentialHeight_length]; omega)
      have : isaGeopotentialHeight.getD 0 0 = -2000 := by
        norm_num [isaGeopotentialHeight]
      linarith
    have hnothigh : ¬ H > 80000 := by
      have h8 : isaGeopotentialHeight.getD (i + 1) 0 ≤
          isaGeopotentialHeight.getD 8 0 :=
        sorted_getD_mono hsort (by omega)
          (by rw [isaGeopotentialHeight_length]; omega)
      have : isaGeopotentialHeight.getD 8 0 = 80000 := by
        norm_num [isaGeopotentialHeight]
      linarith
    have hbisect : bisectRight isaGeopotentialHeight H = i + 1 :=
      bisectRight_eq_succ isaGeopotentialHeight hsort H i
        (by rw [isaGeopotentialHeight_length]; omega) hlow hhigh
    simp only [pressure_function, ← hH]
    rw [if_neg hnotlow, if_neg hnothigh, hbisect]
    simp only [Nat.add_sub_cancel, isaLayerPressureSpec]
    by_cases hB : isaBeta.getD i 0 = 0
    · rw [if_neg (by simpa using hB), if_neg (by simpa using hB), hB]
      congr 1
      congr 1
      ring1
    · rw [if_pos hB, if_pos hB]
  · intro htop
    have hsort := isaGeopotentialHeight_sorted
    have hbisect : bisectRight isaGeopotentialHeight H = 9 := by
      rw [← isaGeopotentialHeight_length]
      refine bisectRight_eq_length isaGeopotentialHeight hsort H ?_
      intro j hj
      have h8 : isaGeopotentialHeight.getD j 0 ≤ isaGeopotentialHeight.getD 8 0 :=
        sorted_getD_mono hsort (by rw [isaGeopotentialHeight_length] at hj; omega)
          (by rw [isaGeopotentialHeight_length]; omega)
      have : isaGeopotentialHeight.getD 8 0 = 80000 := by
        norm_num [isaGeopotentialHeight]
      linarith
    simp only [pressure_function, ← hH]
    rw [if_neg (by linarith), if_neg (by linarith), hbisect, htop]
    norm_num [isaLayerPressureSpec, isaBeta, isaTemperature,
      isaGeopotentialHeight, isaPressure]

/-- Witness for C2 at `ER = 2`, `h = -4` (geopotential height 4 m, inside
layer 1). -/
theorem pressure_function_spec_witness :
    pressure_function 2 (-4) = isaLayerPressureSpec 1 (2 * (-4) / (2 + (-4))) :=
  (pressure_function_spec 2 (-4)).2.2.1 1 (by norm_num)
    (by norm_num [isaGeopotentialHeight])
    (by norm_num [isaGeopotentialHeight])

/-- Claim C1: After every operation that sets or replaces the atmospheric
model — `setAtmosphericModel` with any ingestion branch, and
`selectEnsembleMember` — the derived density, speed-of-sound and
dynamic-viscosity profiles are recomputed from the currently active pressure
and temperature profiles, satisfying `density = P/(R*T)`,
`speedOfSound = sqrt(1.4*R*T)` and Sutherland's law at every height. -/
theorem derived_profiles_recomputed (process : Environment → Environment)
    (e : Environment) :
    derivedProfilesConsistent (setAtmosphericModel process e) ∧
    (∀ (k : ℤ) (e' : Environment), selectEnsembleMember e k = Except.ok e' →
      derivedProfilesConsistent e') := by
  constructor
  · intro h
    exact ⟨rfl, rfl, rfl⟩
  · intro k e' hok
    by_cases hge : k ≥ (e.numEnsembleMembers : ℤ)
    · rw [selectEnsembleMember, if_pos hge] at hok
      exact absurd hok (by simp)
    · rw [selectEnsembleMember, if_neg hge] at hok
      cases hidx : numpyIndex e.numEnsembleMembers k with
      | none =>
        rw [hidx] at hok
        exact absurd hok (by simp)
      | some m =>
        rw [hidx] at hok
        simp only [Except.ok.injEq] at hok
        subst hok
        intro h
        exact ⟨rfl, rfl, rfl⟩

/-- Witness for C1: the invariant holds concretely after a trivial model
switch on `exampleEnsembleEnv` and after activating ensemble member 0. -/
theorem derived_profiles_recomputed_witness :
    derivedProfilesConsistent (setAtmosphericModel id exampleEnsembleEnv) ∧
    ∃ e', selectEnsembleMember exampleEnsembleEnv 0 = Except.ok e' ∧
      derivedProfilesConsistent e' := by
  obtain ⟨h₁, h₂⟩ := derived_profiles_recomputed id exampleEnsembleEnv
  exact ⟨h₁, ⟨_, rfl, h₂ 0 _ rfl⟩⟩

/-- Claim C10: `addWindGust(gustX, gustY)` replaces the wind components by
their old values plus the gusts and rebuilds `windHeading` and `windSpeed`
from the new components, but leaves `windDirection` completely unchanged —
so `windDirection` still reflects the pre-gust wind and (witnessed by a
concrete gust, since a vanishing gust preserves it) no longer equals
`(windHeading - 180) mod 360`. -/
theorem addWindGust_frame (e : Environment) (gX gY : ℝ → ℝ) :
    (addWindGust e gX gY).windVelocityX
        = (fun h => e.windVelocityX h + gX h) ∧
    (addWindGust e gX gY).windVelocityY
        = (fun h => e.windVelocityY h + gY h) ∧
    (addWindGust e gX gY).windHeading
        = (fun h => pymod ((180 / Real.pi) *
            numpyArctan2 (e.windVelocityX h + gX h)
              (e.windVelocityY h + gY h)) 360) ∧
    (addWindGust e gX gY).windSpeed
        = (fun h => Real.sqrt ((e.windVelocityX h + gX h) ^ 2 +
            (e.windVelocityY h + gY h) ^ 2)) ∧
    (addWindGust e gX gY).windDirection = e.windDirection ∧
    ∃ (e₀ : Environment) (g₀X g₀Y : ℝ → ℝ) (h₀ : ℝ),
      e₀.windDirection h₀ = pymod (e₀.windHeading h₀ - 180) 360 ∧
      (addWindGust e₀ g₀X g₀Y).windDirection h₀ ≠
        pymod ((addWindGust e₀ g₀X g₀Y).windHeading h₀ - 180) 360 := by
  refine ⟨rfl, rfl, rfl, rfl, rfl,
    windGustExampleEnv, fun _ => 1, fun _ => -1, 0, ?_, ?_⟩
  · show (180:ℝ) = pymod ((0:ℝ) - 180) 360
    have hfl : ⌊((0:ℝ) - 180) / 360⌋ = -1 := by
      rw [Int.floor_eq_iff]
      constructor <;> norm_num
    rw [pymod, hfl]
    norm_num
  · show (180:ℝ) ≠ pymod
      (pymod ((180 / Real.pi) * numpyArctan2 ((0:ℝ) + 1) ((1:ℝ) + -1)) 360
        - 180) 360
    have hatan : numpyArctan2 ((0:ℝ) + 1) ((1:ℝ) + -1) = Real.pi / 2 := by
      rw [numpyArctan2]
      norm_num
    rw [hatan]
    have hpi : (180 / Real.pi) * (Real.pi / 2) = 90 := by
      have hpne := Real.pi_ne_zero
      field_simp
      ring1
    rw [hpi]
    have h90 : pymod (90:ℝ) 360 = 90 := by
      have hfl : ⌊(90:ℝ) / 360⌋ = 0 := by
        rw [Int.floor_eq_iff]
        constructor <;> norm_num
      rw [pymod, hfl]
      norm_num
    rw [h90]
    have h270 : pymod ((90:ℝ) - 180) 360 = 270 := by
      have hfl : ⌊((90:ℝ) - 180) / 360⌋ = -1 := by
        rw [Int.floor_eq_iff]
        constructor <;> norm_num
      rw [pymod, hfl]
      norm_num
    rw [h270]
    norm_num

/-- Slicing and rebuilding profiles never writes the raw ensemble arrays. -/
theorem selectEnsembleMemberBody_raw (e : Environment) (m : ℕ) (k : ℤ) :
    ensembleRaw (selectEnsembleMemberBody e m k) = ensembleRaw e := rfl

/-- The member count is untouched by member activation. -/
theorem selectEnsembleMemberBody_num (e : Environment) (m : ℕ) (k : ℤ) :
    (selectEnsembleMemberBody e m k).numEnsembleMembers =
      e.numEnsembleMembers := rfl

/-- Activating a member of an environment that itself resulted from a member
activation gives the same state as activating it on the original
environment: the body only reads the (preserved) raw arrays. -/
theorem selectEnsembleMemberBody_idem (e : Environment) (m : ℕ) (k k' : ℤ) :
    selectEnsembleMemberBody (selectEnsembleMemberBody e m k) m k' =
      selectEnsembleMemberBody e m k' := rfl

/-- Claim C5, amended: `selectEnsembleMember`'s bounds check raises the
configuration error listing the valid range `0..numEnsembleMembers-1`
exactly when `member ≥ numEnsembleMembers`.  Negative indices are *not*
rejected: for `-n ≤ member < n` the call proceeds and activates a member
(negative values index from the end, per Python semantics), and for
`member < -n` the array access itself fails with an `IndexError`, not the
range-listing error. -/
theorem selectEnsembleMember_bounds (e : Environment) (k : ℤ) :
    (k ≥ (e.numEnsembleMembers : ℤ) →
      selectEnsembleMember e k =
        Except.error (EnvError.valueError 0 ((e.numEnsembleMembers : ℤ) - 1))) ∧
    (k < (e.numEnsembleMembers : ℤ) → -(e.numEnsembleMembers : ℤ) ≤ k →
      ∃ e', selectEnsembleMember e k = Except.ok e' ∧
        e'.ensembleMember = k) ∧
    (k < -(e.numEnsembleMembers : ℤ) →
      selectEnsembleMember e k = Except.error EnvError.indexError) := by
  refine ⟨?_, ?_, ?_⟩
  · intro hge
    rw [selectEnsembleMember, if_pos hge]
  · intro hlt hneg
    rw [selectEnsembleMember, if_neg (not_le.mpr hlt)]
    by_cases h0 : 0 ≤ k
    · rw [numpyIndex, if_pos h0, if_pos hlt]
      exact ⟨_, rfl, rfl⟩
    · rw [numpyIndex, if_neg h0, if_pos hneg]
      exact ⟨_, rfl, rfl⟩
  · intro hlow
    have hn : (0:ℤ) ≤ (e.numEnsembleMembers : ℤ) := Int.ofNat_nonneg _
    rw [selectEnsembleMember, if_neg (by omega), numpyIndex,
      if_neg (by omega), if_neg (by omega)]

/-- Witness for C5 (amended) at `exampleEnsembleEnv` (two members) and
`member = 5`: the range-listing error is raised. -/
theorem selectEnsembleMember_bounds_witness :
    selectEnsembleMember exampleEnsembleEnv 5 =
      Except.error (EnvError.valueError 0
        ((exampleEnsembleEnv.numEnsembleMembers : ℤ) - 1)) :=
  (selectEnsembleMember_bounds exampleEnsembleEnv 5).1 (by decide)

/-- Counterexample to C5 as stated: the negative index `-1` is *not*
rejected by the bounds check — the call succeeds on a two-member
environment and stores the raw member index `-1`. -/
theorem selectEnsembleMember_negative_index_accepted :
    ∃ e', selectEnsembleMember exampleEnsembleEnv (-1) = Except.ok e' ∧
      e'.ensembleMember = -1 :=
  ⟨_, rfl, rfl⟩

/-- Claim C6: `selectEnsembleMember` is idempotent and side-effect-free on
the raw ensemble data: activating a valid member `k` twice in a row yields
the identical profile state, and the stored per-member raw arrays are
unchanged. -/
theorem selectEnsembleMember_idempotent (e : Environment) (k : ℤ)
    (h0 : 0 ≤ k) (hn : k < (e.numEnsembleMembers : ℤ)) :
    ∃ e₁, selectEnsembleMember e k = Except.ok e₁ ∧
      selectEnsembleMember e₁ k = Except.ok e₁ ∧
      ensembleRaw e₁ = ensembleRaw e := by
  have hge : ¬ k ≥ (e.numEnsembleMembers : ℤ) := not_le.mpr hn
  have hidx : numpyIndex e.numEnsembleMembers k = some k.toNat := by
    rw [numpyIndex, if_pos h0, if_pos hn]
  refine ⟨selectEnsembleMemberBody e k.toNat k, ?_, ?_, ?_⟩
  · rw [selectEnsembleMember, if_neg hge, hidx]
  · rw [selectEnsembleMember]
    simp only [selectEnsembleMemberBody_num]
    rw [if_neg hge]
    rw [hidx]
    exact congrArg Except.ok (selectEnsembleMemberBody_idem e k.toNat k k)
  · exact selectEnsembleMemberBody_raw e k.toNat k

/-- Witness for C6 at `exampleEnsembleEnv` and member 1. -/
theorem selectEnsembleMember_idempotent_witness :
    ∃ e₁, selectEnsembleMember exampleEnsembleEnv 1 = Except.ok e₁ ∧
      selectEnsembleMember e₁ 1 = Except.ok e₁ ∧
      ensembleRaw e₁ = ensembleRaw exampleEnsembleEnv :=
  selectEnsembleMember_idempotent exampleEnsembleEnv 1 (by decide) (by decide)

theorem cumOffset_succ_shift (count j : ℕ) :
    cumOffset count (j + 1) = count + cumOffset (count + 1) j := by
  induction j with
  | zero => simp [cumOffset]
  | succ j ih =>
    rw [show cumOffset count (j + 1 + 1)
          = cumOffset count (j + 1) + (count + (j + 1) + 1) from rfl, ih,
        show cumOffset (count + 1) (j + 1)
          = cumOffset (count + 1) j + (count + 1 + j + 1) from rfl]
    omega

theorem getLast?_cons_of_ne_nil {α : Type} (a : α) {l : List α}
    (h : l ≠ []) : (a :: l).getLast? = l.getLast? := by
  cases l with
  | nil => exact absurd rfl h
  | cons b t => simp [List.getLast?]

theorem forecastRetryAux_spec (avail : ℤ → Bool) (c : ℤ) :
    ∀ (fuel count : ℕ) (t fileT : ℤ),
      RetrySpec avail c t count fuel
        (forecastRetryAux avail c count t fileT fuel) := by
  intro fuel
  induction fuel with
  | zero =>
    intro count t fileT
    refine ⟨by simp [forecastRetryAux], ?_, ?_, ?_, ?_⟩
    · intro j hj
      simp [forecastRetryAux] at hj
    · intro j hj
      simp [forecastRetryAux] at hj
    · intro htrue
      simp [forecastRetryAux] at htrue
    · intro _
      exact ⟨by simp [forecastRetryAux], fun j hj => by
        simp [forecastRetryAux] at hj, fun h0 => absurd rfl h0⟩
  | succ fuel ih =>
    intro count t fileT
    simp only [forecastRetryAux]
    cases hav : avail (c * Int.fdiv (t - c * (count : ℤ)) c) with
    | true =>
      simp only [hav, if_true]
      refine ⟨by simp, ?_, ?_, ?_, ?_⟩
      · intro j hj
        simp only [List.length_singleton] at hj
        interval_cases j
        simp [cumOffset]
      · intro j hj hj1
        simp only [List.length_singleton] at hj1
        omega
      · intro _
        exact ⟨rfl, hav⟩
      · intro hfalse
        simp at hfalse
    | false =>
      simp only [hav, Bool.false_eq_true, if_false]
      obtain ⟨ihlen, ihget, ihfail, ihtrue, ihfalse⟩ :=
        ih (count + 1) (t - c * count) (c * Int.fdiv (t - c * (count : ℤ)) c)
      refine ⟨?_, ?_, ?_, ?_, ?_⟩
      · simpa using Nat.succ_le_succ ihlen
      · intro j hj
        cases j with
        | zero =>
          simp only [List.get]
          show c * Int.fdiv (t - c * (count : ℤ)) c
              = c * Int.fdiv (t - c * ((cumOffset count 0 : ℕ) : ℤ)) c
          rfl
        | succ j =>
          simp only [List.length_cons] at hj
          have hj' : j < (forecastRetryAux avail c (count + 1) (t - c * count)
              (c * Int.fdiv (t - c * (count : ℤ)) c) fuel).2.2.length := by omega
          simp only [List.get_cons_succ]
          rw [ihget j hj', cumOffset_succ_shift]
          congr 1
          congr 1
          push_cast
          ring1
      · intro j hj hj1
        cases j with
        | zero => exact hav
        | succ j =>
          simp only [List.length_cons] at hj hj1
          have hj' : j < (forecastRetryAux avail c (count + 1) (t - c * count)
              (c * Int.fdiv (t - c * (count : ℤ)) c) fuel).2.2.length := by omega
          simp only [List.get_cons_succ]
          exact ihfail j hj' (by omega)
      · intro htrue
        obtain ⟨hlast, hava⟩ := ihtrue htrue
        have hne : (forecastRetryAux avail c (count + 1) (t - c * count)
            (c * Int.fdiv (t - c * (count : ℤ)) c) fuel).2.2 ≠ [] := by
          intro hnil
          rw [hnil] at hlast
          simp at hlast
        rw [getLast?_cons_of_ne_nil _ hne]
        exact ⟨hlast, hava⟩
      · intro hfalse
        obtain ⟨hlen, hallfail, hlast⟩ := ihfalse hfalse
        refine ⟨by simpa using congrArg Nat.succ hlen, ?_, ?_⟩
        · intro j hj
          cases j with
          | zero => exact hav
          | succ j =>
            simp only [List.length_cons] at hj
            have hj' : j < (forecastRetryAux avail c (count + 1) (t - c * count)
                (c * Int.fdiv (t - c * (count : ℤ)) c) fuel).2.2.length := by
              omega
            simp only [List.get_cons_succ]
            exact hallfail j hj'
        · intro _
          by_cases hfuel : fuel = 0
          · subst hfuel
            simp [forecastRetryAux]
          · have hne : (forecastRetryAux avail c (count + 1) (t - c * count)
                (c * Int.fdiv (t - c * (count : ℤ)) c) fuel).2.2 ≠ [] := by
              intro hnil
              rw [hnil] at hlen
              simp at hlen
              omega
            rw [getLast?_cons_of_ne_nil _ hne]
            exact hlast hfuel

/-- Claim C7, amended: For the named feed shortcuts, ingestion is attempted
at most 10 times; the first attempt targets the current run time's nominal
publication timestamp; the `j`-th attempt targets the timestamp obtained by
flooring `t0 - cadence * cumOffset 0 j` to the cadence (so the gap between
consecutive attempts *grows* by one cadence per failure rather than being a
single cadence); the loop stops at the first success; and when every
attempt fails the error names the last attempted source timestamp. -/
theorem forecast_retry_schedule (avail : ℤ → Bool) (cadence t0 : ℤ) :
    RetrySpec avail cadence t0 0 10 (forecastRetry avail cadence t0) :=
  forecastRetryAux_spec avail cadence 10 0 t0 0

/-- Counterexample to C7 as stated: with cadence 6 h and every attempt
failing, the attempted nominal timestamps recede by growing multiples of
the cadence (0, 6, 18, 36, ... hours), not by exactly one cadence per
attempt. -/
theorem forecast_retry_not_single_cadence :
    (forecastRetry (fun _ => false) 6 0).2.2 =
      [0, -6, -18, -36, -60, -90, -126, -168, -216, -270] ∧
    (forecastRetry (fun _ => false) 6 0).2.2 ≠
      (List.range 10).map (fun i => -6 * (i : ℤ)) := by
  constructor
  · rfl
  · decide

/-- Witness for C7 (amended), applying the schedule theorem with the
all-failing availability at cadence 6 and `t0 = 0`: the attempt budget is
exhausted (10 attempts) and the last attempted timestamp is reported. -/
theorem forecast_retry_schedule_witness :
    (forecastRetry (fun _ => false) 6 0).2.2.length = 10 ∧
    (forecastRetry (fun _ => false) 6 0).2.2.getLast? =
      some (forecastRetry (fun _ => false) 6 0).2.1 := by
  obtain ⟨-, -, -, -, hfail⟩ := forecast_retry_schedule (fun _ => false) 6 0
  obtain ⟨hlen, -, hlast⟩ := hfail rfl
  exact ⟨hlen, hlast (by decide)⟩

/-- Python's float modulo with a positive modulus lies in `[0, m)`. -/
theorem pymod_nonneg_lt (x m : ℝ) (hm : 0 < m) :
    0 ≤ pymod x m ∧ pymod x m < m := by
  have h1 : (⌊x / m⌋ : ℝ) ≤ x / m := Int.floor_le _
  have h2 : x / m < ⌊x / m⌋ + 1 := Int.lt_floor_add_one _
  have hx : m * (x / m) = x := by field_simp
  constructor
  · have h3 := mul_le_mul_of_nonneg_left h1 hm.le
    rw [hx] at h3
    rw [pymod]
    linarith
  · have h3 := mul_lt_mul_of_pos_left h2 hm
    rw [mul_add, hx, mul_one] at h3
    rw [pymod]
    linarith

/-- Python's float modulo changes its argument by an integer multiple of
the modulus. -/
theorem pymod_sub_self (x m : ℝ) : ∃ k : ℤ, pymod x m - x = m * k :=
  ⟨-⌊x / m⌋, by rw [pymod]; push_cast; ring1⟩

/-- On an ascending list, the first entry bounds every member from below. -/
theorem sorted_head_le {l : List ℝ} (hs : l.Sorted (· ≤ ·)) {v : ℝ}
    (hv : v ∈ l) : l.getD 0 0 ≤ v := by
  cases l with
  | nil => simp at hv
  | cons a t =>
    rw [List.sorted_cons] at hs
    rcases List.mem_cons.mp hv with rfl | hvt
    · simp
    · simpa using hs.1 v hvt

/-- On a descending list, the last entry bounds every member from below. -/
theorem sorted_getLast_le :
    ∀ (l : List ℝ), l.Sorted (· ≥ ·) → ∀ v ∈ l, l.getLast?.getD 0 ≤ v := by
  intro l
  induction l with
  | nil => intro _ v hv; simp at hv
  | cons a t ih =>
    intro hs v hv
    rw [List.sorted_cons] at hs
    cases t with
    | nil =>
      simp only [List.mem_singleton] at hv
      subst hv
      simp [List.getLast?]
    | cons b t2 =>
      rw [getLast?_cons_of_ne_nil a (by simp)]
      rcases List.mem_cons.mp hv with rfl | hvt
      · have h1 := ih hs.2 b (List.mem_cons_self b t2)
        have h2 : b ≤ v := hs.1 b (List.mem_cons_self b t2)
        linarith
      · exact ih hs.2 v hvt

/-- The defaulted last entry of a nonempty list is a member. -/
theorem getLast?D_mem : ∀ (l : List ℝ), l ≠ [] → l.getLast?.getD 0 ∈ l := by
  intro l
  induction l with
  | nil => intro h; exact absurd rfl h
  | cons a t ih =>
    intro _
    cases t with
    | nil => simp [List.getLast?]
    | cons b t2 =>
      rw [getLast?_cons_of_ne_nil a (by simp)]
      exact List.mem_cons_of_mem a (ih (by simp))

/-- Claim C8, amended: For a monotone longitude grid and a query longitude
in `[-180, 360)`: if the grid contains a negative longitude the query is
mapped to a congruent angle (mod 360) in `[-180, 180)`; otherwise it is
mapped to a congruent angle in `[0, 360)`.  (At exactly 360 with a
negative-spanning grid the code returns -180, which is congruent to 180,
not to 360 — see the counterexample.) -/
theorem normalizeLongitude_spec (lonArray : List ℝ) (lon : ℝ)
    (hne : lonArray ≠ [])
    (hmono : lonArray.Sorted (· ≤ ·) ∨ lonArray.Sorted (· ≥ ·))
    (hlo : -180 ≤ lon) (hhi : lon < 360) :
    ((∃ v ∈ lonArray, v < 0) →
      (∃ k : ℤ, normalizeLongitude lonArray lon - lon = 360 * k) ∧
      -180 ≤ normalizeLongitude lonArray lon ∧
      normalizeLongitude lonArray lon < 180) ∧
    ((∀ v ∈ lonArray, 0 ≤ v) →
      (∃ k : ℤ, normalizeLongitude lonArray lon - lon = 360 * k) ∧
      0 ≤ normalizeLongitude lonArray lon ∧
      normalizeLongitude lonArray lon < 360) := by
  constructor
  · rintro ⟨v, hvmem, hvneg⟩
    have hcond : lonArray.getD 0 0 < 0 ∨ lonArray.getLast?.getD 0 < 0 := by
      rcases hmono with hasc | hdesc
      · exact Or.inl (lt_of_le_of_lt (sorted_head_le hasc hvmem) hvneg)
      · exact Or.inr (lt_of_le_of_lt (sorted_getLast_le _ hdesc v hvmem) hvneg)
    rw [normalizeLongitude, if_pos hcond]
    by_cases hl : lon < 180
    · rw [if_pos hl]
      exact ⟨⟨0, by simp⟩, hlo, hl⟩
    · rw [if_neg hl]
      push_neg at hl
      have hfl : ⌊lon / 180⌋ = 1 := by
        rw [Int.floor_eq_iff]
        constructor
        · push_cast
          rw [le_div_iff₀ (by norm_num : (0:ℝ) < 180)]
          linarith
        · push_cast
          rw [div_lt_iff₀ (by norm_num : (0:ℝ) < 180)]
          linarith
      rw [pymod, hfl]
      push_cast
      refine ⟨⟨-1, by push_cast; ring1⟩, by linarith, by linarith⟩
  · intro hpos
    have hcond : ¬ (lonArray.getD 0 0 < 0 ∨ lonArray.getLast?.getD 0 < 0) := by
      push_neg
      constructor
      · cases lonArray with
        | nil => exact absurd rfl hne
        | cons a t => simpa using hpos a (List.mem_cons_self a t)
      · exact hpos _ (getLast?D_mem _ hne)
    rw [normalizeLongitude, if_neg hcond]
    obtain ⟨hge, hlt⟩ := pymod_nonneg_lt lon 360 (by norm_num)
    exact ⟨pymod_sub_self lon 360, hge, hlt⟩

/-- Witness for C8 (amended) on the negative-spanning grid `[-10, 10]` with
query longitude 270: the result is congruent mod 360 and lies in
`[-180, 180)`. -/
theorem normalizeLongitude_spec_witness :
    (∃ k : ℤ, normalizeLongitude [-10, 10] 270 - 270 = 360 * k) ∧
    -180 ≤ normalizeLongitude [-10, 10] 270 ∧
    normalizeLongitude [-10, 10] 270 < 180 :=
  (normalizeLongitude_spec [-10, 10] 270 (by simp)
      (Or.inl (by norm_num [List.sorted_cons]))
      (by norm_num) (by norm_num)).1
    ⟨-10, by norm_num, by norm_num⟩

/-- Counterexample to C8 as stated: on a grid containing negative
longitudes, the query longitude 360 (inside the claimed input range
"0 to 360") is mapped to -180, which is *not* congruent to 360 modulo
360. -/
theorem normalizeLongitude_counterexample :
    normalizeLongitude [-10, 10] 360 = -180 ∧
    ¬ ∃ k : ℤ, normalizeLongitude [-10, 10] 360 - 360 = 360 * k := by
  have hval : normalizeLongitude [-10, 10] 360 = -180 := by
    rw [normalizeLongitude, if_pos (by norm_num), if_neg (by norm_num)]
    have hfl : ⌊(360:ℝ) / 180⌋ = 2 := by
      rw [Int.floor_eq_iff]
      constructor <;> norm_num
    rw [pymod, hfl]
    norm_num
  refine ⟨hval, ?_⟩
  rw [hval]
  rintro ⟨k, hk⟩
  have h1 : (360:ℝ) * k = -540 := by linarith
  have h2 : ((2 * k : ℤ) : ℝ) = ((-3 : ℤ) : ℝ) := by push_cast; linarith
  have h3 : (2 * k : ℤ) = -3 := Int.cast_injective h2
  omega

end RocketPy
